import Mathlib

/-!
# Verification of the codeart inline-completion extension

Shallow embedding of the prompt-window assembler, completion cache,
configuration store, provider registry and completion debounce logic of the
`codeart-extension` repository, with theorems settling the specification's
claims about them.
-/

namespace CodeArt

/-! ## JavaScript array-slice semantics

`Array.prototype.slice(start, end)` resolves a possibly-negative index `i`
relative to the array length: a negative index counts from the end (clamped
below at 0), a non-negative index is clamped above at the length. -/

/-- Resolve a JavaScript slice index against a list length. -/
def jsIndex (len : Nat) (i : Int) : Nat :=
  if i < 0 then ((len : Int) + i).toNat else min i.toNat len

/-- `l.slice(start)` of JavaScript: drop everything before the resolved
start index. -/
def jsSlice {α : Type} (l : List α) (start : Int) : List α :=
  l.drop (jsIndex l.length start)

/-- `l.slice(start, stop)` of JavaScript: elements between the resolved
start and stop indices. -/
def jsSliceTo {α : Type} (l : List α) (start stop : Int) : List α :=
  (l.take (jsIndex l.length stop)).drop (jsIndex l.length start)

/-! ## Prompt-window truncation (`InlineCompletionProvider.generateCompletions`)

Embeds the token-truncation step: the prefix/suffix allotments are computed
from the configured context-prefix weight and the prompt token limit, and
the if/else-if chain truncates via JavaScript `slice`. -/

/-- `Math.floor(contextPrefixWeight * promptTokenLimit) - headerTokens.length`. -/
def computeMaxPrefixLength (weight : ℚ) (promptTokenLimit : Int)
    (headerLen : Nat) : Int :=
  ⌊weight * (promptTokenLimit : ℚ)⌋ - headerLen

/-- `promptTokenLimit - maxPrefixLength - headerTokens.length`. -/
def computeMaxSuffixLength (weight : ℚ) (promptTokenLimit : Int)
    (headerLen : Nat) : Int :=
  promptTokenLimit - computeMaxPrefixLength weight promptTokenLimit headerLen
    - headerLen

/-- The truncation if/else-if chain over the prefix and suffix token
sequences, taking the two allotments as computed by the caller. -/
def truncateTokens (promptTokenLimit maxPrefixLength maxSuffixLength : Int)
    (prefixTokens suffixTokens : List Int) : List Int × List Int :=
  if (prefixTokens.length : Int) > maxPrefixLength ∧
      (suffixTokens.length : Int) > maxSuffixLength then
    (jsSlice prefixTokens (-maxPrefixLength),
     jsSliceTo suffixTokens 0 maxSuffixLength)
  else if (prefixTokens.length : Int) > maxPrefixLength ∧
      (suffixTokens.length : Int) ≤ maxSuffixLength then
    (jsSlice prefixTokens ((suffixTokens.length : Int) - promptTokenLimit),
     suffixTokens)
  else if (prefixTokens.length : Int) ≤ maxPrefixLength ∧
      (suffixTokens.length : Int) > maxSuffixLength then
    (prefixTokens,
     jsSliceTo suffixTokens 0 (promptTokenLimit - (prefixTokens.length : Int)))
  else
    (prefixTokens, suffixTokens)

/-- The whole truncation step of `generateCompletions`: compute the
allotments from the configured weight, then truncate. -/
def assembleTruncation (weight : ℚ) (promptTokenLimit : Int)
    (headerTokens prefixTokens suffixTokens : List Int) :
    List Int × List Int :=
  truncateTokens promptTokenLimit
    (computeMaxPrefixLength weight promptTokenLimit headerTokens.length)
    (computeMaxSuffixLength weight promptTokenLimit headerTokens.length)
    prefixTokens suffixTokens

/-! ## JavaScript strings

JavaScript strings are modelled as character sequences (`List Char`) so that
every operation is structurally recursive and kernel-evaluable. -/

/-- A JavaScript string value. -/
abbrev JStr := List Char

/-- `s.trim()` of JavaScript: remove whitespace from both ends. -/
def jsTrim (s : JStr) : JStr :=
  ((s.dropWhile Char.isWhitespace).reverse.dropWhile Char.isWhitespace).reverse

/-- `s.startsWith(p)` of JavaScript. -/
def jsStartsWith (s p : JStr) : Bool :=
  p.isPrefixOf s

/-- `s.split("\n")` of JavaScript: split into lines, keeping empty
segments; splitting the empty string yields one empty segment. -/
def jsSplitNewline : JStr → List JStr
  | [] => [[]]
  | c :: rest =>
    if c = '\n' then [] :: jsSplitNewline rest
    else
      match jsSplitNewline rest with
      | [] => [[c]]
      | l :: ls => (c :: l) :: ls

/-! ## Stop-sequence derivation (`generateCompletions`, lines 599-610)

The stop list starts with a single newline when the cursor's line has
non-whitespace content (continuation), otherwise a double newline; the first
of the trimmed non-blank suffix lines is appended only when there are more
than one of them. -/

/-- The trimmed, non-blank lines of the suffix:
`suffix.split("\n").map(trim).filter(nonblank)`. -/
def suffixStopLines (suffix : JStr) : List JStr :=
  ((jsSplitNewline suffix).map jsTrim).filter (fun item => jsTrim item ≠ [])

/-- The derived stop-sequence list, from the cursor line's full text and the
suffix string. -/
def computeStopSequences (currentLineText suffix : JStr) : List JStr :=
  let stop : List JStr :=
    if jsTrim currentLineText ≠ [] then [['\n']] else [['\n', '\n']]
  match suffixStopLines suffix with
  | line0 :: _ :: _ => stop ++ [line0]
  | _ => stop

/-! ## Completion cache (`InlineCompletionProvider.checkCompletionCache`)

The single-slot cache stores the document prefix through the insertion
point plus the emitted completion, and the remaining suffix.  A request
hits iff the cached prefix is non-blank and extends the live document
prefix, and the cached suffix is non-blank and equals the live suffix; the
returned item is the unconsumed remainder with a zero-width range at the
cursor position. -/

/-- The single-entry completion cache. -/
structure CompletionCache where
  cachePrefix : JStr
  cacheSuffix : JStr

/-- `checkCompletionCache`: `position` is the cursor position (kept
abstract); the result is the inline completion item, as insert-text plus
`(range.start, range.end)`. -/
def checkCompletionCache {P : Type} (cache : CompletionCache) (position : P)
    (documentPrefix documentSuffix : JStr) : Option (JStr × (P × P)) :=
  if (jsTrim cache.cachePrefix).length ≠ 0 ∧
      jsStartsWith cache.cachePrefix documentPrefix ∧
      (jsTrim cache.cacheSuffix).length ≠ 0 ∧
      cache.cacheSuffix = documentSuffix then
    some (cache.cachePrefix.drop documentPrefix.length, (position, position))
  else
    none

/-! ## Early exits of `generateCompletions` (lines 494-509)

Before any prompt-window work, the generator returns an empty completion
list when the document's language is disabled for completions, and again
when no provider adapter is bound to the "Inline Completion" slot.  The
remainder of the generation (prompt assembly, network call, cache write) is
abstracted as a function of the bound provider and the current cache. -/

/-- The control flow of `generateCompletions` up to the provider check;
`rest` is the body that runs when a provider is bound. -/
def generateCompletionsEntry {Item Provider : Type}
    (disabledLanguages : List JStr) (languageId : JStr)
    (provider : Option Provider)
    (rest : Provider → CompletionCache → List Item × CompletionCache)
    (cache : CompletionCache) : List Item × CompletionCache :=
  if languageId ∈ disabledLanguages then ([], cache)
  else
    match provider with
    | none => ([], cache)
    | some p => rest p cache

/-! ## Configuration store and deletion cascade
(`ConfigureModelCommand.deleteConfirmationDialog`, `storage.ts`, `constants.ts`)

The store keeps `model.providers.<nickname>` → ModelConfig and
`usage.preferences.<locationName>` → UsagePreference entries; the feature
slots are the six `LOCATIONS`. -/

/-- The six feature slots of `constants.ts`. -/
inductive Location where
  | chatSuggestions
  | chatTitle
  | inlineChat
  | panelChat
  | commitMessage
  | inlineCompletion
deriving DecidableEq

/-- The `LOCATIONS` constant, in source order. -/
def LOCATIONS : List Location :=
  [.chatSuggestions, .chatTitle, .inlineChat, .panelChat, .commitMessage,
   .inlineCompletion]

/-- A persisted model-provider configuration (`IModelConfig`). -/
structure ModelConfig where
  nickname : JStr
  model : JStr
  providerId : JStr
  contextWindow : Int
deriving DecidableEq

/-- A persisted usage preference (`IUsagePreference`). -/
structure UsagePreference where
  providerId : JStr
  nickname : JStr
  locationName : Location
deriving DecidableEq

/-- The durable key-value store slice used by the configure-model command
and the provider registry. -/
structure Store where
  models : JStr → Option ModelConfig
  usage : Location → Option UsagePreference

/-- One iteration of the deletion loop: clear the slot's preference when it
references the deleted nickname. -/
def clearSlot (nickname : JStr) (usage : Location → Option UsagePreference)
    (loc : Location) : Location → Option UsagePreference :=
  match usage loc with
  | some pref =>
    if pref.nickname = nickname then
      fun l => if l = loc then none else usage l
    else usage
  | none => usage

/-- `deleteConfirmationDialog`: when the typed confirmation matches the
nickname, delete the model config and clear every usage preference that
referenced it; otherwise leave the store unchanged. -/
def deleteConfirmationDialog (st : Store) (nickname : JStr)
    (confirmNickname : Option JStr) : Store :=
  if confirmNickname = some nickname then
    { models := fun key => if key = nickname then none else st.models key,
      usage := LOCATIONS.foldl (clearSlot nickname) st.usage }
  else st

/-! ## Provider registry (`ModelProviderManager`)

Per-slot resolution: read the slot's usage preference, look the provider id
up among the registered adapter classes, construct the adapter from the
saved model config (the constructor throws when the config is missing) and
run its async initializer (modelled as an oracle that may fail).  The
re-resolution pass deletes each slot's existing binding first and catches
per-slot exceptions. -/

/-- A live provider adapter instance bound to a model config. -/
structure ProviderInstance where
  providerId : JStr
  config : ModelConfig
deriving DecidableEq

/-- Per-slot resolution as an exception-tracking computation, mirroring the
body of the `try` block in `updateProviders` (after the delete):
`Except.error` is a thrown exception, `.ok none` an early return that
leaves the slot unconfigured. -/
def resolveSlotExcept (registry : List JStr)
    (init : ProviderInstance → Except JStr Unit) (st : Store)
    (loc : Location) : Except JStr (Option ProviderInstance) :=
  match st.usage loc with
  | none => .ok none
  | some pref =>
    match registry.find? (fun pid => pid = pref.providerId) with
    | none => .ok none
    | some pid =>
      match st.models pref.nickname with
      | none => .error ("Model configuration not found".toList)
      | some cfg =>
        let p : ProviderInstance := ⟨pid, cfg⟩
        match init p with
        | .error e => .error e
        | .ok _ => .ok (some p)

/-- The settled outcome of one slot: its resolution, with a thrown
exception caught (logged) and the slot left unconfigured. -/
def slotOutcome (registry : List JStr)
    (init : ProviderInstance → Except JStr Unit) (st : Store)
    (loc : Location) : Option ProviderInstance :=
  match resolveSlotExcept registry init st loc with
  | .ok r => r
  | .error _ => none

/-- One slot's iteration of `updateProviders`: delete the existing binding,
then resolve; on success bind the new instance, on early return or caught
exception leave the slot deleted. -/
def updateSlot (registry : List JStr)
    (init : ProviderInstance → Except JStr Unit) (st : Store)
    (m : Location → Option ProviderInstance) (loc : Location) :
    Location → Option ProviderInstance :=
  let deleted : Location → Option ProviderInstance :=
    fun l => if l = loc then none else m l
  match resolveSlotExcept registry init st loc with
  | .ok (some p) => fun l => if l = loc then some p else deleted l
  | .ok none => deleted
  | .error _ => deleted

/-- `updateProviders`: the re-resolution pass over all feature slots. -/
def updateProviders (registry : List JStr)
    (init : ProviderInstance → Except JStr Unit) (st : Store)
    (providers : Location → Option ProviderInstance) :
    Location → Option ProviderInstance :=
  LOCATIONS.foldl (updateSlot registry init st) providers

/-- `getProvider`: look the slot up in the resolved-provider map. -/
def getProvider (providers : Location → Option ProviderInstance)
    (loc : Location) : Option ProviderInstance :=
  providers loc

/-! ## Completion debounce (`provideInlineCompletionItems`, lines 447-479)

Each trigger schedules a delayed generation (`setTimeout`); cancelling the
request's token clears the pending timer (`clearTimeout`) and aborts the
network call, so a cleared timer never fires.  The single-threaded event
loop is modelled as a step relation over timer/call state. -/

/-- An event of the debounce event loop, tagged by trigger index. -/
inductive DebounceEvent where
  | trigger (i : Nat)
  | cancel (i : Nat)
  | elapse (i : Nat)
deriving DecidableEq

/-- Pending (scheduled, uncancelled) timers and completed network calls. -/
structure DebounceState where
  pending : List Nat
  calls : List Nat
deriving DecidableEq

/-- One event-loop step: a trigger schedules its timer, a cancellation
clears it, and an elapsed timer performs the network call only if it is
still pending. -/
def debounceStep (s : DebounceState) (e : DebounceEvent) : DebounceState :=
  match e with
  | .trigger i => { s with pending := s.pending ++ [i] }
  | .cancel i => { s with pending := s.pending.filter (fun j => j ≠ i) }
  | .elapse i =>
    if i ∈ s.pending then
      { pending := s.pending.filter (fun j => j ≠ i),
        calls := s.calls ++ [i] }
    else s

/-- Run a list of events from a starting state. -/
def runEvents (s : DebounceState) (es : List DebounceEvent) : DebounceState :=
  es.foldl debounceStep s

/-- A burst of `n + 1` rapid-fire triggers: trigger 0 first, then each
subsequent trigger accompanied by the cancellation of its predecessor's
token, all before any delay elapses. -/
def burst (n : Nat) : List DebounceEvent :=
  .trigger 0 :: (List.range n).flatMap (fun i => [.trigger (i + 1), .cancel i])

/-- `N` rapid-fire triggers within the debounce window, after which the
last scheduled timer's delay elapses. -/
def rapidFireTrace (N : Nat) : List DebounceEvent :=
  burst (N - 1) ++ [.elapse (N - 1)]

/-! ## Sample data for concrete instantiations -/

/-- A sample persisted completion-model configuration. -/
def sampleConfig : ModelConfig :=
  ⟨"a".toList, "m".toList, "openai-completion".toList, 4000⟩

/-- A sample store: one model config nicknamed "a", used by the
"Inline Completion" slot. -/
def sampleStore : Store where
  models := fun key => if key = "a".toList then some sampleConfig else none
  usage := fun loc =>
    if loc = .inlineCompletion then
      some ⟨"openai-completion".toList, "a".toList, .inlineCompletion⟩
    else none

/-- A sample store whose "Inline Completion" preference references a
missing model config (its resolution throws), while "Panel Chat"
references an existing one. -/
def failingStore : Store where
  models := fun key => if key = "a".toList then some sampleConfig else none
  usage := fun loc =>
    if loc = .inlineCompletion then
      some ⟨"openai-completion".toList, "missing".toList, .inlineCompletion⟩
    else if loc = .panelChat then
      some ⟨"openai-completion".toList, "a".toList, .panelChat⟩
    else none

/-- The effect of one deletion-loop iteration on a single slot's value:
drop the preference iff it references the nickname. -/
def filterNickname (nickname : JStr) :
    Option UsagePreference → Option UsagePreference
  | some pref => if pref.nickname = nickname then none else some pref
  | none => none

/-! ## Helper lemmas -/

/-- The resolved slice index never exceeds the length. -/
lemma jsIndex_le (len : Nat) (i : Int) : jsIndex len i ≤ len := by
  unfold jsIndex
  split <;> omega

/-- Length of a one-argument slice. -/
lemma length_jsSlice {α : Type} (l : List α) (i : Int) :
    (jsSlice l i).length = l.length - jsIndex l.length i := by
  simp [jsSlice]

/-- A slice from index 0 is a take. -/
lemma jsSliceTo_zero {α : Type} (l : List α) (b : Int) :
    jsSliceTo l 0 b = l.take (jsIndex l.length b) := by
  unfold jsSliceTo
  have h0 : jsIndex l.length 0 = 0 := by unfold jsIndex; simp
  rw [h0, List.drop_zero]

/-- Taking `min k length` elements is the same as taking `k`. -/
lemma take_min {α : Type} (l : List α) (k : Nat) :
    l.take (min k l.length) = l.take k := by
  rcases le_total k l.length with h | h
  · rw [min_eq_left h]
  · rw [min_eq_right h, List.take_length, List.take_of_length_le h]

/-- Every slot is in the `LOCATIONS` list. -/
lemma mem_LOCATIONS (l : Location) : l ∈ LOCATIONS := by
  cases l <;> decide

/-- Pointwise effect of one deletion-loop iteration. -/
lemma clearSlot_apply (n : JStr) (u : Location → Option UsagePreference)
    (curr l : Location) :
    clearSlot n u curr l
      = if l = curr then filterNickname n (u curr) else u l := by
  unfold clearSlot filterNickname
  cases h : u curr with
  | none =>
    by_cases hl : l = curr
    · subst hl
      simp [h]
    · simp [hl]
  | some pref =>
    by_cases hp : pref.nickname = n
    · simp only [if_pos hp]
    · simp only [if_neg hp]
      by_cases hl : l = curr
      · subst hl
        simp [h]
      · simp [hl]

/-- Dropping a referencing preference is idempotent. -/
lemma filterNickname_idem (n : JStr) (o : Option UsagePreference) :
    filterNickname n (filterNickname n o) = filterNickname n o := by
  cases o with
  | none => rfl
  | some pref =>
    unfold filterNickname
    by_cases hp : pref.nickname = n
    · simp [hp]
    · simp [hp]

/-- Pointwise effect of the whole deletion loop: a slot in the iterated
list has its referencing preference dropped, other slots are untouched. -/
lemma foldl_clearSlot_apply (n : JStr) (locs : List Location) :
    ∀ (u : Location → Option UsagePreference) (l : Location),
      locs.foldl (clearSlot n) u l
        = if l ∈ locs then filterNickname n (u l) else u l := by
  induction locs with
  | nil =>
    intro u l
    simp
  | cons curr locs ih =>
    intro u l
    rw [List.foldl_cons, ih]
    by_cases hl : l = curr
    · subst hl
      by_cases hm : l ∈ locs
      · simp [hm, clearSlot_apply, filterNickname_idem]
      · simp [hm, clearSlot_apply]
    · by_cases hm : l ∈ locs
      · simp [hm, hl, clearSlot_apply, List.mem_cons]
      · simp [hm, hl, clearSlot_apply, List.mem_cons]

/-- Pointwise effect of one slot's re-resolution iteration: the slot is
set to its own settled outcome, other slots are untouched. -/
lemma updateSlot_apply (registry : List JStr)
    (init : ProviderInstance → Except JStr Unit) (st : Store)
    (m : Location → Option ProviderInstance) (curr l : Location) :
    updateSlot registry init st m curr l
      = if l = curr then slotOutcome registry init st curr else m l := by
  unfold updateSlot slotOutcome
  cases h : resolveSlotExcept registry init st curr with
  | ok r =>
    cases r with
    | none => rfl
    | some p =>
      by_cases hl : l = curr
      · simp [hl]
      · simp [hl]
  | error e => rfl

/-- Pointwise effect of the whole re-resolution pass: every slot in the
iterated list ends at its own settled outcome. -/
lemma foldl_updateSlot_apply (registry : List JStr)
    (init : ProviderInstance → Except JStr Unit) (st : Store)
    (locs : List Location) :
    ∀ (m : Location → Option ProviderInstance) (l : Location),
      locs.foldl (updateSlot registry init st) m l
        = if l ∈ locs then slotOutcome registry init st l else m l := by
  induction locs with
  | nil =>
    intro m l
    simp
  | cons curr locs ih =>
    intro m l
    rw [List.foldl_cons, ih]
    by_cases hl : l = curr
    · subst hl
      by_cases hm : l ∈ locs <;> simp [hm, updateSlot_apply]
    · by_cases hm : l ∈ locs <;>
        simp [hm, hl, updateSlot_apply, List.mem_cons]

/-- Appending event lists composes the runs. -/
lemma runEvents_append (s : DebounceState) (a b : List DebounceEvent) :
    runEvents s (a ++ b) = runEvents (runEvents s a) b := by
  unfold runEvents
  rw [List.foldl_append]

/-- Unrolling one more rapid-fire trigger and its predecessor's
cancellation. -/
lemma burst_succ (n : Nat) :
    burst (n + 1) = burst n ++ [.trigger (n + 1), .cancel n] := by
  simp [burst, List.range_succ]

/-- After a burst of `n + 1` rapid-fire triggers, only the last timer is
pending and no network call has been made. -/
lemma burst_run (n : Nat) :
    runEvents ⟨[], []⟩ (burst n) = ⟨[n], []⟩ := by
  induction n with
  | zero => rfl
  | succ n ih =>
    rw [burst_succ, runEvents_append, ih]
    show runEvents ⟨[n], []⟩ [.trigger (n + 1), .cancel n] = ⟨[n + 1], []⟩
    simp [runEvents, debounceStep, List.filter_cons]

/-- Evaluation of the prefix allotment at the worked example's inputs. -/
lemma maxPrefixLength_eval : computeMaxPrefixLength (3/4) 100 10 = 65 := by
  unfold computeMaxPrefixLength
  norm_num

/-- Evaluation of the suffix allotment at the worked example's inputs. -/
lemma maxSuffixLength_eval : computeMaxSuffixLength (3/4) 100 10 = 25 := by
  unfold computeMaxSuffixLength computeMaxPrefixLength
  norm_num

/-- Core length bound for the truncation chain: with a positive prefix
allotment and a nonnegative suffix allotment summing with the header to the
limit, the output total is at most `limit + headerLen`, and at most `limit`
whenever not exactly one side exceeds its allotment. -/
lemma truncateTokens_length_bound (L MP MS : Int) (H : Nat)
    (pre suf : List Int) (hMP : 1 ≤ MP) (hMS : 0 ≤ MS)
    (hsum : L = MP + MS + H) :
    (((truncateTokens L MP MS pre suf).1.length : Int)
        + ((truncateTokens L MP MS pre suf).2.length : Int) + (H : Int)
      ≤ L + H)
    ∧ ((MP < (pre.length : Int) ↔ MS < (suf.length : Int)) →
      ((truncateTokens L MP MS pre suf).1.length : Int)
          + ((truncateTokens L MP MS pre suf).2.length : Int) + (H : Int)
        ≤ L) := by
  unfold truncateTokens
  split_ifs with h1 h2 h3 <;>
      refine ⟨?_, fun hiff => ?_⟩ <;>
      simp only [length_jsSlice, jsSliceTo_zero, List.length_take,
        List.length_drop] <;>
      first
        | omega
        | (unfold jsIndex
           split_ifs <;> omega)

/-- Core case analysis for the truncation chain. -/
lemma truncateTokens_cases (L MP MS : Int) (H : Nat)
    (pre suf : List Int) (hMP : 1 ≤ MP) (hMS : 0 ≤ MS)
    (hsum : L = MP + MS + H) :
    (MP < (pre.length : Int) ∧ MS < (suf.length : Int) →
      truncateTokens L MP MS pre suf
        = (pre.drop (pre.length - MP.toNat), suf.take MS.toNat))
    ∧ (MP < (pre.length : Int) ∧ (suf.length : Int) ≤ MS →
      truncateTokens L MP MS pre suf
        = (pre.drop (pre.length - (L - (suf.length : Int)).toNat), suf))
    ∧ ((pre.length : Int) ≤ MP ∧ MS < (suf.length : Int) →
      truncateTokens L MP MS pre suf
        = (pre, suf.take (L - (pre.length : Int)).toNat))
    ∧ ((pre.length : Int) ≤ MP ∧ (suf.length : Int) ≤ MS →
      truncateTokens L MP MS pre suf = (pre, suf)) := by
  refine ⟨fun hc => ?_, fun hc => ?_, fun hc => ?_, fun hc => ?_⟩
  · unfold truncateTokens
    rw [if_pos (show (pre.length : Int) > MP ∧ (suf.length : Int) > MS by
      omega)]
    have e1 : jsSlice pre (-MP) = pre.drop (pre.length - MP.toNat) := by
      unfold jsSlice
      congr 1
      unfold jsIndex
      split_ifs <;> omega
    have e2 : jsSliceTo suf 0 MS = suf.take MS.toNat := by
      rw [jsSliceTo_zero]
      unfold jsIndex
      rw [if_neg (by omega)]
      exact take_min suf _
    rw [e1, e2]
  · unfold truncateTokens
    rw [if_neg (by omega),
      if_pos (show (pre.length : Int) > MP ∧ (suf.length : Int) ≤ MS by
        omega)]
    have e1 : jsSlice pre ((suf.length : Int) - L)
        = pre.drop (pre.length - (L - (suf.length : Int)).toNat) := by
      unfold jsSlice
      congr 1
      unfold jsIndex
      rw [if_pos (by omega)]
      omega
    rw [e1]
  · unfold truncateTokens
    rw [if_neg (by omega), if_neg (by omega),
      if_pos (show (pre.length : Int) ≤ MP ∧ (suf.length : Int) > MS by
        omega)]
    have e2 : jsSliceTo suf 0 (L - (pre.length : Int))
        = suf.take (L - (pre.length : Int)).toNat := by
      rw [jsSliceTo_zero]
      unfold jsIndex
      rw [if_neg (by omega)]
      exact take_min suf _
    rw [e2]
  · unfold truncateTokens
    rw [if_neg (by omega), if_neg (by omega), if_neg (by omega)]

end CodeArt

open CodeArt

set_option maxRecDepth 8000

/-- C1 counterexample: at `tokenLimit = 100`, `headerLen = 10`,
`contextWeightFraction = 0.75`, a 200-token prefix and a 10-token suffix
(only the prefix exceeds its allotment), the truncated output totals
90 + 10 + 10 = 110 tokens, violating the claimed invariant
`prefixTokens.length + suffixTokens.length + headerTokens.length <= promptTokenLimit`. -/
theorem truncation_invariant_counterexample :
    ¬ ((assembleTruncation (3/4) 100 (List.replicate 10 (0:Int))
          (List.replicate 200 0) (List.replicate 10 0)).1.length
        + (assembleTruncation (3/4) 100 (List.replicate 10 (0:Int))
          (List.replicate 200 0) (List.replicate 10 0)).2.length
        + (List.replicate 10 (0:Int)).length ≤ 100) := by
  unfold assembleTruncation
  simp only [List.length_replicate]
  rw [maxPrefixLength_eval, maxSuffixLength_eval]
  decide

/-- C1 amended: with a positive prefix allotment and a nonnegative suffix
allotment, the truncated total is bounded by
`promptTokenLimit + headerTokens.length` in all cases, and by
`promptTokenLimit` itself whenever it is not the case that exactly one of
prefix and suffix exceeds its allotment (the reallocation of the other
side's unused budget is clipped to `tokenLimit - otherSide.length` without
subtracting the header length, so in the single-side-exceeds cases the
total can exceed the limit by up to the header length). -/
theorem truncation_token_bound (w : ℚ) (L : Int) (header pre suf : List Int)
    (hMP : 1 ≤ computeMaxPrefixLength w L header.length)
    (hMS : 0 ≤ computeMaxSuffixLength w L header.length) :
    (((assembleTruncation w L header pre suf).1.length : Int)
        + ((assembleTruncation w L header pre suf).2.length : Int)
        + (header.length : Int) ≤ L + header.length)
    ∧ ((computeMaxPrefixLength w L header.length < (pre.length : Int)
          ↔ computeMaxSuffixLength w L header.length < (suf.length : Int)) →
      ((assembleTruncation w L header pre suf).1.length : Int)
          + ((assembleTruncation w L header pre suf).2.length : Int)
          + (header.length : Int) ≤ L) := by
  have hsum : L = computeMaxPrefixLength w L header.length
      + computeMaxSuffixLength w L header.length + header.length := by
    unfold computeMaxSuffixLength
    ring
  have h := truncateTokens_length_bound L
    (computeMaxPrefixLength w L header.length)
    (computeMaxSuffixLength w L header.length)
    header.length pre suf hMP hMS hsum
  simpa [assembleTruncation] using h

/-- C1 witness: the bound of `truncation_token_bound` instantiated at the
worked example's inputs. -/
theorem truncation_token_bound_witness :
    (1 ≤ computeMaxPrefixLength (3/4) 100 (List.replicate 10 (0:Int)).length)
    ∧ (0 ≤ computeMaxSuffixLength (3/4) 100 (List.replicate 10 (0:Int)).length)
    ∧ (((assembleTruncation (3/4) 100 (List.replicate 10 (0:Int))
          (List.replicate 200 0) (List.replicate 10 0)).1.length : Int)
        + ((assembleTruncation (3/4) 100 (List.replicate 10 (0:Int))
          (List.replicate 200 0) (List.replicate 10 0)).2.length : Int)
        + ((List.replicate 10 (0:Int)).length : Int)
        ≤ 100 + ((List.replicate 10 (0:Int)).length : Int)) := by
  have h1 : (1:Int) ≤ computeMaxPrefixLength (3/4) 100
      (List.replicate 10 (0:Int)).length := by
    rw [List.length_replicate, maxPrefixLength_eval]
    norm_num
  have h2 : (0:Int) ≤ computeMaxSuffixLength (3/4) 100
      (List.replicate 10 (0:Int)).length := by
    rw [List.length_replicate, maxSuffixLength_eval]
    norm_num
  exact ⟨h1, h2,
    (truncation_token_bound (3/4) 100 (List.replicate 10 0)
      (List.replicate 200 0) (List.replicate 10 0) h1 h2).1⟩

/-- C2 counterexample: at `tokenLimit = 100`, `headerLen = 10`,
`contextWeightFraction = 0.75`, a 200-token prefix and a 10-token suffix,
the assembler computes `maxPrefixLen = 65`, not 57, and keeps the
prefix's last 90 tokens, not 57. -/
theorem truncation_example_not_57 :
    computeMaxPrefixLength (3/4) 100 10 ≠ 57
    ∧ (assembleTruncation (3/4) 100 (List.replicate 10 0)
        (List.replicate 200 0) (List.replicate 10 0)).1.length ≠ 57 := by
  constructor
  · rw [maxPrefixLength_eval]
    norm_num
  · unfold assembleTruncation
    simp only [List.length_replicate]
    rw [maxPrefixLength_eval, maxSuffixLength_eval]
    decide

/-- C2 amended: at `tokenLimit = 100`, `headerLen = 10`,
`contextWeightFraction = 0.75`, prefix of 200 tokens and suffix of 10
tokens, the assembler computes `maxPrefixLen = floor(0.75*100) - 10 = 65`
and `maxSuffixLen = 25`; only the prefix exceeds its allotment, so it
receives the unused budget and is truncated to its last
`100 - 10 = 90` tokens, while the suffix is left untouched at 10 tokens. -/
theorem truncation_example_eval :
    computeMaxPrefixLength (3/4) 100 10 = 65
    ∧ computeMaxSuffixLength (3/4) 100 10 = 25
    ∧ assembleTruncation (3/4) 100 (List.replicate 10 0)
        (List.replicate 200 0) (List.replicate 10 0)
      = ((List.replicate 200 (0:Int)).drop 110, List.replicate 10 (0:Int))
    ∧ (assembleTruncation (3/4) 100 (List.replicate 10 0)
        (List.replicate 200 0) (List.replicate 10 0)).1.length = 90 := by
  refine ⟨maxPrefixLength_eval, maxSuffixLength_eval, ?_, ?_⟩ <;>
    (unfold assembleTruncation
     simp only [List.length_replicate]
     rw [maxPrefixLength_eval, maxSuffixLength_eval]
     decide)

/-- C4: with a positive prefix allotment and a nonnegative suffix
allotment, the truncation behaves case by case as specified: both sides
exceeding keeps the prefix's last `maxPrefixLen` and the suffix's first
`maxSuffixLen` tokens; only the prefix exceeding keeps its last
`tokenLimit - suffixTokens.length` tokens with the suffix unchanged; only
the suffix exceeding keeps its first `tokenLimit - prefixTokens.length`
tokens with the prefix unchanged; neither exceeding changes nothing. -/
theorem truncation_case_analysis (w : ℚ) (L : Int)
    (header pre suf : List Int)
    (hMP : 1 ≤ computeMaxPrefixLength w L header.length)
    (hMS : 0 ≤ computeMaxSuffixLength w L header.length) :
    (computeMaxPrefixLength w L header.length < (pre.length : Int)
        ∧ computeMaxSuffixLength w L header.length < (suf.length : Int) →
      assembleTruncation w L header pre suf
        = (pre.drop
            (pre.length - (computeMaxPrefixLength w L header.length).toNat),
           suf.take (computeMaxSuffixLength w L header.length).toNat))
    ∧ (computeMaxPrefixLength w L header.length < (pre.length : Int)
        ∧ (suf.length : Int) ≤ computeMaxSuffixLength w L header.length →
      assembleTruncation w L header pre suf
        = (pre.drop (pre.length - (L - (suf.length : Int)).toNat), suf))
    ∧ ((pre.length : Int) ≤ computeMaxPrefixLength w L header.length
        ∧ computeMaxSuffixLength w L header.length < (suf.length : Int) →
      assembleTruncation w L header pre suf
        = (pre, suf.take (L - (pre.length : Int)).toNat))
    ∧ ((pre.length : Int) ≤ computeMaxPrefixLength w L header.length
        ∧ (suf.length : Int) ≤ computeMaxSuffixLength w L header.length →
      assembleTruncation w L header pre suf = (pre, suf)) := by
  have hsum : L = computeMaxPrefixLength w L header.length
      + computeMaxSuffixLength w L header.length + header.length := by
    unfold computeMaxSuffixLength
    ring
  have h := truncateTokens_cases L
    (computeMaxPrefixLength w L header.length)
    (computeMaxSuffixLength w L header.length)
    header.length pre suf hMP hMS hsum
  simpa [assembleTruncation] using h

/-- C4 witness: the only-prefix-exceeds case at the worked example's
inputs, where the prefix keeps its last `100 - 10 = 90` tokens. -/
theorem truncation_case_analysis_witness :
    assembleTruncation (3/4) 100 (List.replicate 10 (0:Int))
        (List.replicate 200 0) (List.replicate 10 0)
      = ((List.replicate 200 (0:Int)).drop
          ((List.replicate 200 (0:Int)).length
            - ((100:Int) - ((List.replicate 10 (0:Int)).length : Int)).toNat),
         List.replicate 10 (0:Int)) := by
  have h1 : (1:Int) ≤ computeMaxPrefixLength (3/4) 100
      (List.replicate 10 (0:Int)).length := by
    rw [List.length_replicate, maxPrefixLength_eval]
    norm_num
  have h2 : (0:Int) ≤ computeMaxSuffixLength (3/4) 100
      (List.replicate 10 (0:Int)).length := by
    rw [List.length_replicate, maxSuffixLength_eval]
    norm_num
  refine (truncation_case_analysis (3/4) 100 (List.replicate 10 0)
    (List.replicate 200 0) (List.replicate 10 0) h1 h2).2.1 ⟨?_, ?_⟩
  · simp only [List.length_replicate, maxPrefixLength_eval]
    norm_num
  · simp only [List.length_replicate, maxSuffixLength_eval]
    norm_num

/-- C3 counterexample: a whitespace-only cached prefix is non-empty and
starts with the empty live prefix, the cached suffix equals the live
suffix and is non-empty, yet `checkCompletionCache` misses — the code
requires both cached strings to be non-blank (non-empty after trimming),
not merely non-empty. -/
theorem cache_nonblank_counterexample :
    jsStartsWith " ".toList ([] : JStr) = true
    ∧ " ".toList ≠ ([] : JStr)
    ∧ "x".toList ≠ ([] : JStr)
    ∧ checkCompletionCache ⟨" ".toList, "x".toList⟩ (0 : Nat) [] "x".toList
        = none := by
  decide

/-- C3 amended: `checkCompletionCache` returns a completion iff the cached
prefix is non-blank (non-empty after trimming) and starts with the live
document prefix, and the cached suffix is non-blank and equals the live
document suffix exactly; on a hit it returns exactly the unconsumed
remainder `cachePrefix.slice(documentPrefix.length)` with a zero-width
range at the cursor. -/
theorem checkCompletionCache_hit_law {P : Type} (cache : CompletionCache)
    (position : P) (docPrefixText docSuffixText : JStr) :
    ((checkCompletionCache cache position docPrefixText docSuffixText).isSome
      ↔ (jsTrim cache.cachePrefix ≠ []
         ∧ jsStartsWith cache.cachePrefix docPrefixText = true
         ∧ jsTrim cache.cacheSuffix ≠ []
         ∧ cache.cacheSuffix = docSuffixText))
    ∧ (∀ r, checkCompletionCache cache position docPrefixText docSuffixText
          = some r →
        r = (cache.cachePrefix.drop docPrefixText.length,
             (position, position))) := by
  have hiff : ((jsTrim cache.cachePrefix).length ≠ 0
      ∧ jsStartsWith cache.cachePrefix docPrefixText = true
      ∧ (jsTrim cache.cacheSuffix).length ≠ 0
      ∧ cache.cacheSuffix = docSuffixText)
      ↔ (jsTrim cache.cachePrefix ≠ []
      ∧ jsStartsWith cache.cachePrefix docPrefixText = true
      ∧ jsTrim cache.cacheSuffix ≠ []
      ∧ cache.cacheSuffix = docSuffixText) := by
    simp [List.length_eq_zero]
  constructor
  · rw [← hiff]
    unfold checkCompletionCache
    split_ifs with h
    · exact iff_of_true (by simp) h
    · exact iff_of_false (by simp) h
  · intro r hr
    unfold checkCompletionCache at hr
    split_ifs at hr with h
    injection hr with h2
    exact h2.symm

/-- C3 witness: a concrete cache hit returning the unconsumed remainder. -/
theorem checkCompletionCache_hit_law_witness :
    ("b".toList, ((0:Nat), (0:Nat)))
      = ("ab".toList.drop ("a".toList).length, ((0:Nat), (0:Nat))) :=
  (checkCompletionCache_hit_law ⟨"ab".toList, "z".toList⟩ (0:Nat)
    "a".toList "z".toList).2 ("b".toList, (0, 0)) (by decide)

/-- C5 counterexample: a suffix with exactly one non-blank line — its
first non-blank line is not added to the stop list, since the code only
pushes it when there are more than one non-blank suffix lines. -/
theorem stop_sequences_first_line_counterexample :
    (suffixStopLines "foo".toList).head? = some "foo".toList
    ∧ "foo".toList ∉ computeStopSequences "x".toList "foo".toList := by
  decide

/-- C5 amended: the stop-sequence list begins with a single newline if the
cursor's current line contains non-whitespace content and otherwise with a
double newline, and additionally contains the first non-blank (trimmed)
line of the suffix as a stop string whenever the suffix has at least two
non-blank lines. -/
theorem stop_sequences_spec (line suffixText : JStr) :
    (computeStopSequences line suffixText).head?
      = some (if jsTrim line ≠ [] then ['\n'] else ['\n', '\n'])
    ∧ (∀ l0 l1 rest, suffixStopLines suffixText = l0 :: l1 :: rest →
        l0 ∈ computeStopSequences line suffixText) := by
  constructor
  · rcases h : suffixStopLines suffixText with _ | ⟨a, _ | ⟨b, r⟩⟩ <;>
      simp only [computeStopSequences, h] <;> split_ifs <;> rfl
  · intro l0 l1 rest h
    simp only [computeStopSequences, h]
    split_ifs <;> simp

/-- C5 witness: with cursor line "x" and suffix "a\nb", the first
non-blank suffix line "a" is a stop string. -/
theorem stop_sequences_spec_witness :
    "a".toList ∈ computeStopSequences "x".toList "a\nb".toList :=
  (stop_sequences_spec "x".toList "a\nb".toList).2 "a".toList "b".toList []
    (by decide)

/-- C6: after a confirmed deletion of the model config with a given
nickname completes, no usage preference in any feature slot references
that nickname, and the invariant that a usage preference never references
a nonexistent model config is preserved by the delete operation. -/
theorem delete_cascade_preserves_invariant (st : Store) (nickname : JStr)
    (confirmNickname : Option JStr)
    (hconfirm : confirmNickname = some nickname) :
    (∀ loc pref,
        (deleteConfirmationDialog st nickname confirmNickname).usage loc
          = some pref →
        pref.nickname ≠ nickname)
    ∧ ((∀ loc pref, st.usage loc = some pref →
          (st.models pref.nickname).isSome = true) →
      ∀ loc pref,
        (deleteConfirmationDialog st nickname confirmNickname).usage loc
          = some pref →
        ((deleteConfirmationDialog st nickname confirmNickname).models
            pref.nickname).isSome = true) := by
  subst hconfirm
  unfold deleteConfirmationDialog
  rw [if_pos rfl]
  dsimp only
  have key : ∀ loc pref,
      LOCATIONS.foldl (clearSlot nickname) st.usage loc = some pref →
      st.usage loc = some pref ∧ pref.nickname ≠ nickname := by
    intro loc pref h
    rw [foldl_clearSlot_apply, if_pos (mem_LOCATIONS loc)] at h
    cases hu : st.usage loc with
    | none =>
      rw [hu] at h
      simp [filterNickname] at h
    | some p =>
      rw [hu] at h
      simp only [filterNickname] at h
      split_ifs at h with hp
      injection h with h2
      subst h2
      exact ⟨rfl, hp⟩
  constructor
  · intro loc pref h
    exact (key loc pref h).2
  · intro hinv loc pref h
    obtain ⟨hu, hn⟩ := key loc pref h
    rw [if_neg hn]
    exact hinv loc pref hu

/-- C6 witness: deleting the sample store's config "a" with matching
confirmation leaves no slot referencing "a". -/
theorem delete_cascade_preserves_invariant_witness :
    (some "a".toList = some "a".toList)
    ∧ (∀ loc pref,
        (deleteConfirmationDialog sampleStore "a".toList
          (some "a".toList)).usage loc = some pref →
        pref.nickname ≠ "a".toList) :=
  ⟨rfl, (delete_cascade_preserves_invariant sampleStore "a".toList
    (some "a".toList) rfl).1⟩

/-- C7: during a re-resolution pass, an exception thrown while resolving
one slot is caught — the failing slot simply ends unconfigured — and every
other slot still ends at its own resolution outcome, so the pass completes
for every slot. -/
theorem updateProviders_isolates_failures (registry : List JStr)
    (init : ProviderInstance → Except JStr Unit) (st : Store)
    (providers : Location → Option ProviderInstance) (l₁ l₂ : Location)
    (e : JStr) (herr : resolveSlotExcept registry init st l₁ = .error e)
    (hne : l₁ ≠ l₂) :
    getProvider (updateProviders registry init st providers) l₁ = none
    ∧ getProvider (updateProviders registry init st providers) l₂
        = slotOutcome registry init st l₂ := by
  unfold getProvider updateProviders
  constructor
  · rw [foldl_updateSlot_apply, if_pos (mem_LOCATIONS l₁)]
    unfold slotOutcome
    rw [herr]
  · rw [foldl_updateSlot_apply, if_pos (mem_LOCATIONS l₂)]

/-- C7 witness: in the failing sample store, "Inline Completion"
references a missing model config (its adapter constructor throws), yet
"Panel Chat" still resolves to its own outcome. -/
theorem updateProviders_isolates_failures_witness :
    getProvider (updateProviders ["openai-completion".toList]
        (fun _ => .ok ()) failingStore (fun _ => none))
      Location.inlineCompletion = none
    ∧ getProvider (updateProviders ["openai-completion".toList]
        (fun _ => .ok ()) failingStore (fun _ => none))
      Location.panelChat
        = slotOutcome ["openai-completion".toList] (fun _ => .ok ())
            failingStore Location.panelChat :=
  updateProviders_isolates_failures ["openai-completion".toList]
    (fun _ => .ok ()) failingStore (fun _ => none)
    Location.inlineCompletion Location.panelChat
    "Model configuration not found".toList (by rfl) (by decide)

/-- C8: when no provider adapter is bound to the "Inline Completion"
feature slot, completion generation returns an empty completion list and
the completion cache is unchanged, whatever the rest of the generation
would have done. -/
theorem generateCompletions_no_provider {Item Provider : Type}
    (disabledLanguages : List JStr) (languageId : JStr)
    (provider : Option Provider)
    (rest : Provider → CompletionCache → List Item × CompletionCache)
    (cache : CompletionCache) (h : provider = none) :
    generateCompletionsEntry disabledLanguages languageId provider rest
      cache = ([], cache) := by
  subst h
  unfold generateCompletionsEntry
  split_ifs <;> rfl

/-- C8 witness: a concrete unbound request returns the empty list with the
cache untouched. -/
theorem generateCompletions_no_provider_witness :
    generateCompletionsEntry ([] : List JStr) "python".toList
      (none : Option Unit) (fun _ c => (([] : List Unit), c))
      ⟨"p".toList, "s".toList⟩
      = ([], (⟨"p".toList, "s".toList⟩ : CompletionCache)) :=
  generateCompletions_no_provider ([] : List JStr) "python".toList none
    (fun _ c => (([] : List Unit), c)) ⟨"p".toList, "s".toList⟩ rfl

/-- C9: for `N > 0` rapid-fire completion triggers within the debounce
window — each trigger's predecessor cancelled before its delay elapses —
exactly one network call is made, namely the one scheduled by the last
trigger. -/
theorem debounce_single_call (N : Nat) (hN : 0 < N) :
    (runEvents ⟨[], []⟩ (rapidFireTrace N)).calls = [N - 1] := by
  unfold rapidFireTrace
  rw [runEvents_append, burst_run]
  simp [runEvents, debounceStep]

/-- C9 witness: three rapid-fire triggers yield exactly one call, the one
scheduled by trigger 2. -/
theorem debounce_single_call_witness :
    0 < 3 ∧ (runEvents ⟨[], []⟩ (rapidFireTrace 3)).calls = [2] :=
  ⟨by decide, debounce_single_call 3 (by decide)⟩

/-- C10: a slot whose usage preference is absent, whose provider id
matches no registered adapter, or whose construction or initialization
throws, ends the re-resolution pass unconfigured — `getProvider` returns
none — even if a provider instance was bound to it before the pass. -/
theorem updateProviders_clears_unresolved_slots (registry : List JStr)
    (init : ProviderInstance → Except JStr Unit) (st : Store)
    (providers : Location → Option ProviderInstance) (loc : Location)
    (h : st.usage loc = none
      ∨ (∃ pref, st.usage loc = some pref
          ∧ registry.find? (fun pid => pid = pref.providerId) = none)
      ∨ (∃ e, resolveSlotExcept registry init st loc = .error e)) :
    getProvider (updateProviders registry init st providers) loc = none := by
  unfold getProvider updateProviders
  rw [foldl_updateSlot_apply, if_pos (mem_LOCATIONS loc)]
  unfold slotOutcome
  rcases h with h1 | ⟨pref, h1, h2⟩ | ⟨e, h1⟩
  · unfold resolveSlotExcept
    rw [h1]
  · unfold resolveSlotExcept
    rw [h1]
    dsimp only
    rw [h2]
  · rw [h1]

/-- C10 witness: a slot that was bound before the pass but has no usage
preference ends the pass unconfigured. -/
theorem updateProviders_clears_unresolved_slots_witness :
    getProvider (updateProviders ["openai-completion".toList]
        (fun _ => .ok ()) ⟨fun _ => none, fun _ => none⟩
        (fun _ => some ⟨"openai-completion".toList, sampleConfig⟩))
      Location.inlineCompletion = none :=
  updateProviders_clears_unresolved_slots ["openai-completion".toList]
    (fun _ => .ok ()) ⟨fun _ => none, fun _ => none⟩
    (fun _ => some ⟨"openai-completion".toList, sampleConfig⟩)
    Location.inlineCompletion (Or.inl rfl)
